import Mathlib

/-!
Verification of the spdlog-rs formatting core against its specification.

The development shallowly embeds the Rust sources:
  * `src/formatter/basic_formatter.rs` — `BasicFormatter`, `LocalTimeCacher`,
    `LocalTimeCache`, `Time`;
  * `src/formatter/pattern_formatter/pattern/eol.rs` — the `Eol` pattern;
  * the crash-handler state machine (its implementation is outside the
    provided sources; it is modelled from the spec, see `crashStep`).

Machine integers: `chrono` timestamps are `i64` (embedded as `Int`), calendar
fields are `u32`/`i32` (embedded as `Nat`/`Int`; the arithmetic involved,
`% 1_000_000_000 / 1_000_000` on a `u32`, cannot overflow). Buffers
(`StringBuf`) are embedded as `String`, with positions counted in characters.
Fallible buffer writes (`std::fmt::Write::write_str`) are embedded with an
explicit fault oracle saying which write call fails, so that error
propagation is observable.
-/

/-! ## Time and the UTC→local conversion -/

/-- A `chrono::DateTime<Utc>` instant, as the basic formatter consumes it:
`secs` is `timestamp()` (whole-second UNIX epoch, `i64`) and `nsecs` is
`nanosecond()` (sub-second nanoseconds, `u32`). -/
structure UtcTime where
  secs : Int
  nsecs : Nat
  deriving DecidableEq, Repr

/-- The calendar fields of a local-time breakdown other than the millisecond:
what `chrono`'s UTC→local conversion yields for a whole-second instant.
Timezone offsets are whole seconds, so these six fields are a pure function
of the whole-second epoch alone; the conversion itself is an external
collaborator (assumed correct by the spec), so it is kept abstract as a
function `Int → CalFields` throughout. -/
structure CalFields where
  year : Int
  month : Nat
  day : Nat
  hour : Nat
  minute : Nat
  second : Nat
  deriving DecidableEq, Repr

/-- `struct Time` from `basic_formatter.rs`: a cached local-time breakdown. -/
structure Time where
  year : Int
  month : Nat
  day : Nat
  hour : Nat
  minute : Nat
  second : Nat
  millisecond : Nat
  deriving DecidableEq, Repr

/-- `Time::nanosecond_to_millisecond`: `nanosecond % 1_000_000_000 / 1_000_000`. -/
def Time.nanosecond_to_millisecond (nanosecond : Nat) : Nat :=
  nanosecond % 1000000000 / 1000000

/-- `Time::set_millisecond_from_nanosecond`. -/
def Time.set_millisecond_from_nanosecond (t : Time) (nanosecond : Nat) : Time :=
  { t with millisecond := Time.nanosecond_to_millisecond nanosecond }

/-- `impl From<DateTime<T>> for Time` applied to the local `DateTime` obtained
from a UTC instant: the year…second fields come from the (abstract) UTC→local
conversion of the whole-second epoch, and the millisecond comes from the
instant's own sub-second nanoseconds (timezone conversion does not change
the sub-second part). -/
def timeFromUtc (conv : Int → CalFields) (t : UtcTime) : Time :=
  { year := (conv t.secs).year
    month := (conv t.secs).month
    day := (conv t.secs).day
    hour := (conv t.secs).hour
    minute := (conv t.secs).minute
    second := (conv t.secs).second
    millisecond := Time.nanosecond_to_millisecond t.nsecs }

/-! ## The local-time cache -/

/-- `struct LocalTimeCache`. -/
structure LocalTimeCache where
  last_secs : Int
  local_time : Time
  deriving DecidableEq, Repr

/-- `struct LocalTimeCacher`. -/
structure LocalTimeCacher where
  cache : Option LocalTimeCache
  deriving DecidableEq, Repr

/-- `LocalTimeCacher::new` (via `Default`): an empty cache. -/
def LocalTimeCacher.new : LocalTimeCacher := ⟨none⟩

/-- `LocalTimeCacher::cache`: a fresh cache entry for a UTC instant (named
`cacheOf` here because `cache` is the field name). -/
def LocalTimeCacher.cacheOf (conv : Int → CalFields) (utc_time : UtcTime) : LocalTimeCache :=
  { last_secs := utc_time.secs
    local_time := timeFromUtc conv utc_time }

/-- `LocalTimeCacher::get`, with the `&mut self` mutation made explicit:
returns the `Time` handed to the formatter together with the new cacher
state. -/
def LocalTimeCacher.get (conv : Int → CalFields) (c : LocalTimeCacher) (utc_time : UtcTime) :
    Time × LocalTimeCacher :=
  let cache :=
    match c.cache with
    | none => LocalTimeCacher.cacheOf conv utc_time
    | some cache =>
      if cache.last_secs ≠ utc_time.secs then
        LocalTimeCacher.cacheOf conv utc_time
      else
        { cache with
            local_time := cache.local_time.set_millisecond_from_nanosecond utc_time.nsecs }
  (cache.local_time, ⟨some cache⟩)

/-! ## Decimal rendering (Rust `Display` for integers, `{:0w}` padding) -/

/-- Decimal digits of `n`, most significant first; fuel-structural so that it
reduces in the kernel. Mirrors Rust's decimal `Display` for unsigned
integers. -/
def decCharsCore : Nat → Nat → List Char
  | 0, _ => []
  | fuel + 1, n =>
    if n < 10 then [Nat.digitChar n]
    else decCharsCore fuel (n / 10) ++ [Nat.digitChar (n % 10)]

/-- Rust `Display` of an unsigned integer (`"{}"`). -/
def natStr (n : Nat) : String := String.mk (decCharsCore (n + 1) n)

/-- Rust `Display` of a signed integer (`"{}"` on an `i32` such as the year). -/
def intStr (i : Int) : String :=
  if i < 0 then "-" ++ natStr i.natAbs else natStr i.toNat

/-- Rust's `"{:0w}"` on an unsigned integer: left-pad the decimal rendering
with zeros to a minimum width `w`. -/
def natPad (w : Nat) (n : Nat) : String :=
  let s := natStr n
  if s.length < w then String.mk (List.replicate (w - s.length) '0') ++ s else s

/-! ## Records -/

/-- The log severity levels of the library. -/
inductive Level where
  | critical
  | err
  | warn
  | info
  | debug
  | trace
  deriving DecidableEq, Repr

/-- Modelled from the spec: the textual representation of a `Level` (its
`Display` impl is outside the provided sources). The spec's concrete
scenario shows level `warn` rendering as the 4-character text `"warn"`;
the other levels render as their lowercase names likewise. -/
def Level.text : Level → String
  | .critical => "critical"
  | .err => "error"
  | .warn => "warn"
  | .info => "info"
  | .debug => "debug"
  | .trace => "trace"

/-- A source location (`file_name()`, `line()`) carried by a `Record`. -/
structure SourceLocation where
  file_name : String
  line : Nat
  deriving DecidableEq, Repr

/-- A `Record`: the immutable snapshot of one log event, restricted to the
fields the formatting core reads (`level()`, `payload()`, `logger_name()`,
`source_location()`, `time()`). -/
structure Record where
  level : Level
  payload : String
  logger_name : Option String
  source_location : Option SourceLocation
  time : UtcTime
  deriving DecidableEq, Repr

/-! ## The basic formatter -/

/-- `FmtExtraInfo`: the optional half-open style byte range `begin..end`. -/
structure FmtExtraInfo where
  style_range : Option (Nat × Nat)
  deriving DecidableEq, Repr

/-- The timestamp segment written by the first `write!` of
`BasicFormatter::format`: `"[{}-{:02}-{:02} {:02}:{:02}:{:02}.{:03}] ["`. -/
def headerSeg (t : Time) : String :=
  "[" ++ intStr t.year ++ "-" ++ natPad 2 t.month ++ "-" ++ natPad 2 t.day ++ " "
      ++ natPad 2 t.hour ++ ":" ++ natPad 2 t.minute ++ ":" ++ natPad 2 t.second
      ++ "." ++ natPad 3 t.millisecond ++ "] ["

/-- The body of `BasicFormatter::format` after the time has been fetched:
the sequence of `write!` calls appending to `dest`, with the style range
recorded around the level text. -/
def BasicFormatter.formatWithTime (time : Time) (record : Record) (dest : String) :
    String × FmtExtraInfo :=
  let dest := dest ++ headerSeg time
  let dest :=
    match record.logger_name with
    | some logger_name => dest ++ logger_name ++ "] ["
    | none => dest
  let style_range_begin := dest.length
  let dest := dest ++ Level.text record.level
  let style_range_end := dest.length
  let dest :=
    match record.source_location with
    | some srcloc => dest ++ "] [" ++ srcloc.file_name ++ ":" ++ natStr srcloc.line
    | none => dest
  let dest := dest ++ "] " ++ record.payload
  (dest, ⟨some (style_range_begin, style_range_end)⟩)

/-- `BasicFormatter::format`: fetch the (cached) local time for the record's
timestamp, then write the line; the cacher mutation is made explicit. -/
def BasicFormatter.format (conv : Int → CalFields) (c : LocalTimeCacher) (record : Record)
    (dest : String) : (String × FmtExtraInfo) × LocalTimeCacher :=
  let g := LocalTimeCacher.get conv c record.time
  (BasicFormatter.formatWithTime g.1 record dest, g.2)

/-- What `BasicFormatter::format` would produce if it always performed a
full, non-cached UTC→local conversion of the record's timestamp
(`Into::<DateTime<Local>>::into(*utc_time).into()` on every call). -/
def BasicFormatter.formatUncached (conv : Int → CalFields) (record : Record) (dest : String) :
    String × FmtExtraInfo :=
  BasicFormatter.formatWithTime (timeFromUtc conv record.time) record dest

/-- A sequence of `format` calls through one `BasicFormatter`, each into a
fresh buffer, threading the cacher state. -/
def runBasicFormats (conv : Int → CalFields) (c : LocalTimeCacher) :
    List Record → List (String × FmtExtraInfo)
  | [] => []
  | r :: rs =>
    let g := BasicFormatter.format conv c r ""
    g.1 :: runBasicFormats conv g.2 rs

/-! ## Fallible buffer writes -/

/-- `Error::FormatRecord(fmt::Error)`: the error class a failed buffer
write is mapped to before being returned from `format`. -/
inductive FmtError where
  | formatRecord
  deriving DecidableEq, Repr

/-- One `write!`-style append into the buffer, under a fault oracle: the
write with execution index `idx` fails exactly when `oracle idx` is true,
and otherwise appends its text to the buffer. -/
def wtry (oracle : Nat → Bool) (idx : Nat) (dest s : String) : Except FmtError String :=
  if oracle idx then Except.error FmtError.formatRecord else Except.ok (dest ++ s)

/-- An optional write (the logger-name or source-location segment): when the
argument is absent the write is skipped and the index not consumed. Returns
the write result and the next free write index. -/
def optWrite (oracle : Nat → Bool) (idx : Nat) (dest : String) :
    Option String → Except FmtError String × Nat
  | some s => (wtry oracle idx dest s, idx + 1)
  | none => (Except.ok dest, idx)

/-- The number of `write!` calls `BasicFormatter::format` executes for a
record: three unconditional ones (timestamp header, level, payload) plus one
for each optional segment present. -/
def numWrites (record : Record) : Nat :=
  3 + (match record.logger_name with | some _ => 1 | none => 0)
    + (match record.source_location with | some _ => 1 | none => 0)

/-- `BasicFormatter::format` with its buffer writes instrumented by a fault
oracle: each `write!` may fail, and the first failure is propagated with
`?` exactly as in the source. The pure `BasicFormatter.format` is this
function under the never-failing oracle (`formatF_ok`). -/
def BasicFormatter.formatF (conv : Int → CalFields) (oracle : Nat → Bool)
    (c : LocalTimeCacher) (record : Record) (dest : String) :
    Except FmtError ((String × FmtExtraInfo) × LocalTimeCacher) :=
  let g := LocalTimeCacher.get conv c record.time
  match wtry oracle 0 dest (headerSeg g.1) with
  | Except.error e => Except.error e
  | Except.ok dest =>
    let lw := optWrite oracle 1 dest (record.logger_name.map (fun n => n ++ "] ["))
    match lw.1 with
    | Except.error e => Except.error e
    | Except.ok dest =>
      let style_range_begin := dest.length
      match wtry oracle lw.2 dest (Level.text record.level) with
      | Except.error e => Except.error e
      | Except.ok dest =>
        let style_range_end := dest.length
        let sw := optWrite oracle (lw.2 + 1) dest
          (record.source_location.map
            (fun srcloc => "] [" ++ srcloc.file_name ++ ":" ++ natStr srcloc.line))
        match sw.1 with
        | Except.error e => Except.error e
        | Except.ok dest =>
          match wtry oracle sw.2 dest ("] " ++ record.payload) with
          | Except.error e => Except.error e
          | Except.ok dest =>
            Except.ok ((dest, ⟨some (style_range_begin, style_range_end)⟩), g.2)

/-! ## The `Eol` pattern -/

/-- Modelled from the spec and the doc comment in `eol.rs` (`crate::EOL` is
defined outside the provided sources): the platform line terminator, chosen
per build target — `"\r\n"` on Windows-family targets, `"\n"` otherwise. -/
def EOL (windows : Bool) : String := if windows then "\r\n" else "\n"

/-- `Eol::format`: `dest.write_str(crate::EOL).map_err(Error::FormatRecord)`.
The record and the pattern context are ignored (the context type is left
polymorphic, as the source never touches it); the single buffer write is
instrumented by the fault flag `wfail`. -/
def Eol.format {γ : Type} (windows : Bool) (wfail : Bool) (_record : Record)
    (dest : String) (ctx : γ) : Except FmtError (String × γ) :=
  if wfail then Except.error FmtError.formatRecord
  else Except.ok (dest ++ EOL windows, ctx)

/-! ## The crash-handler state machine -/

/-- Modelled from the spec: the crash-handler lifecycle states
(`Uninstalled → Installed → Handling → Reraised/Terminated`); the handler
implementation is outside the provided sources. -/
inductive CrashState where
  | uninstalled
  | installed
  | handling
  | reraised
  | terminated
  deriving DecidableEq, Repr

/-- Modelled from the spec: the events driving the crash-handler state
machine — installation, a fatal event (panic / fault signal / abort), and
completion of the flush. -/
inductive CrashEvent where
  | install
  | fatal
  | flushDone
  deriving DecidableEq, Repr

/-- Modelled from the spec: one transition of the crash-handler state
machine. The second component records whether this transition attempts the
flush of the default logger: the flush is attempted exactly on the
`Installed -[fatal]-> Handling` transition; a fatal event while already
`Handling` short-circuits to `Terminated` without a flush attempt; the
terminal states absorb all events. -/
def crashStep : CrashState → CrashEvent → CrashState × Bool
  | CrashState.uninstalled, CrashEvent.install => (CrashState.installed, false)
  | CrashState.installed, CrashEvent.install => (CrashState.installed, false)
  | CrashState.installed, CrashEvent.fatal => (CrashState.handling, true)
  | CrashState.handling, CrashEvent.fatal => (CrashState.terminated, false)
  | CrashState.handling, CrashEvent.flushDone => (CrashState.reraised, false)
  | s, _ => (s, false)

/-- Run the crash-handler state machine over a sequence of events, counting
the flush attempts made along the way. -/
def runCrash (s : CrashState) : List CrashEvent → CrashState × Nat
  | [] => (s, 0)
  | e :: es =>
    let g := crashStep s e
    let r := runCrash g.1 es
    (r.1, (if g.2 then 1 else 0) + r.2)

/-! ## Concrete scenario data (the spec's concrete test case) -/

/-- The UTC→local conversion used by the spec's concrete scenario: the
instant's local breakdown is `2021-12-23 01:23:45`. -/
def convScenario : Int → CalFields := fun _ => ⟨2021, 12, 23, 1, 23, 45⟩

/-- The record of the spec's concrete scenario: level `warn`, payload
`"test log content"`, no logger name, no source location, sub-second part
67 milliseconds. -/
def recordScenario : Record :=
  { level := Level.warn, payload := "test log content", logger_name := none,
    source_location := none, time := ⟨1640222625, 67000000⟩ }

/-! ## Cache lemmas -/

/-- A cacher state is good when it is empty or caches, for some instant, the
exact breakdown the full non-cached conversion yields for that instant. -/
def goodCacher (conv : Int → CalFields) (c : LocalTimeCacher) : Prop :=
  c.cache = none ∨ ∃ u : UtcTime, c.cache = some ⟨u.secs, timeFromUtc conv u⟩

theorem LocalTimeCacher.get_of_good (conv : Int → CalFields) (c : LocalTimeCacher)
    (u : UtcTime) (h : goodCacher conv c) :
    LocalTimeCacher.get conv c u =
      (timeFromUtc conv u, ⟨some ⟨u.secs, timeFromUtc conv u⟩⟩) := by
  rcases h with h | ⟨v, h⟩
  · simp [LocalTimeCacher.get, h, LocalTimeCacher.cacheOf]
  · by_cases hs : v.secs = u.secs
    · simp [LocalTimeCacher.get, h, hs, Time.set_millisecond_from_nanosecond, timeFromUtc]
    · simp [LocalTimeCacher.get, h, hs, LocalTimeCacher.cacheOf]

theorem LocalTimeCacher.get_cache_eq (conv : Int → CalFields) (c : LocalTimeCacher)
    (u : UtcTime) :
    ((LocalTimeCacher.get conv c u).2).cache =
      some ⟨u.secs, (LocalTimeCacher.get conv c u).1⟩ := by
  rcases hc : c.cache with _ | cache
  · simp [LocalTimeCacher.get, hc, LocalTimeCacher.cacheOf]
  · by_cases hs : cache.last_secs = u.secs
    · simp [LocalTimeCacher.get, hc, hs]
    · simp [LocalTimeCacher.get, hc, hs, LocalTimeCacher.cacheOf]

/-- C1: formatting through the local-time cache is observationally identical
to always performing the full, non-cached UTC→local conversion: starting
from a fresh `BasicFormatter`, any sequence of `format` calls produces
exactly the outputs (buffer contents and `FmtExtraInfo`) of the non-cached
formatter, record by record. -/
theorem basicFormatter_cached_eq_uncached (conv : Int → CalFields) (rs : List Record) :
    runBasicFormats conv LocalTimeCacher.new rs =
      rs.map (fun r => BasicFormatter.formatUncached conv r "") := by
  have aux : ∀ (rs : List Record) (c : LocalTimeCacher), goodCacher conv c →
      runBasicFormats conv c rs =
        rs.map (fun r => BasicFormatter.formatUncached conv r "") := by
    intro rs
    induction rs with
    | nil => intro c _; rfl
    | cons r rs ih =>
      intro c hc
      have hg := LocalTimeCacher.get_of_good conv c r.time hc
      simp only [runBasicFormats, BasicFormatter.format, hg, List.map_cons]
      refine congrArg₂ List.cons rfl ?_
      exact ih _ (Or.inr ⟨r.time, rfl⟩)
  exact aux rs LocalTimeCacher.new (Or.inl rfl)

/-- C3: when two consecutive `LocalTimeCacher::get` calls see the same
whole-second epoch, the second call returns the first call's breakdown with
the year…second fields unchanged and only the millisecond recomputed as
`nanoseconds % 1_000_000_000 / 1_000_000` of the new argument. -/
theorem localTimeCacher_same_second_hit (conv : Int → CalFields) (c : LocalTimeCacher)
    (u1 u2 : UtcTime) (h : u2.secs = u1.secs) :
    (LocalTimeCacher.get conv (LocalTimeCacher.get conv c u1).2 u2).1 =
      { (LocalTimeCacher.get conv c u1).1 with
          millisecond := u2.nsecs % 1000000000 / 1000000 } := by
  have hp := LocalTimeCacher.get_cache_eq conv c u1
  rcases hg : LocalTimeCacher.get conv c u1 with ⟨t1, c1⟩
  rw [hg] at hp
  simp only at hp
  simp [LocalTimeCacher.get, hp, h, Time.set_millisecond_from_nanosecond,
    Time.nanosecond_to_millisecond]

/-- Witness for C3 at concrete inputs: two instants in epoch second 100,
the second with 67000000 sub-second nanoseconds. -/
theorem localTimeCacher_same_second_hit_witness :
    (LocalTimeCacher.get convScenario
        (LocalTimeCacher.get convScenario LocalTimeCacher.new ⟨100, 1500⟩).2 ⟨100, 67000000⟩).1 =
      { (LocalTimeCacher.get convScenario LocalTimeCacher.new ⟨100, 1500⟩).1 with
          millisecond := 67000000 % 1000000000 / 1000000 } :=
  localTimeCacher_same_second_hit convScenario LocalTimeCacher.new ⟨100, 1500⟩ ⟨100, 67000000⟩ rfl

/-! ## Digit-count lemmas and C10 -/

theorem decCharsCore_length_le (fuel : Nat) :
    ∀ n k, n < fuel → 1 ≤ k → n < 10 ^ k → (decCharsCore fuel n).length ≤ k := by
  induction fuel with
  | zero => intro n k hn _ _; omega
  | succ f ih =>
    intro n k hn hk hnk
    by_cases h10 : n < 10
    · rw [decCharsCore]
      simp [h10]
      omega
    · have hk2 : 2 ≤ k := by
        rcases Nat.lt_or_ge k 2 with hlt | hge
        · have hk1 : k = 1 := by omega
          rw [hk1, pow_one] at hnk
          omega
        · exact hge
      have hdiv : n / 10 < 10 ^ (k - 1) := by
        rw [Nat.div_lt_iff_lt_mul (by norm_num)]
        calc n < 10 ^ k := hnk
          _ = 10 ^ (k - 1) * 10 := by
            rw [← pow_succ]
            congr 1
            omega
      have hfuel : n / 10 < f := by
        have hlt : n / 10 < n := Nat.div_lt_self (by omega) (by norm_num)
        omega
      have hrec := ih (n / 10) (k - 1) hfuel (by omega) hdiv
      rw [decCharsCore]
      simp [h10]
      omega

theorem natStr_length_le (n k : Nat) (hk : 1 ≤ k) (h : n < 10 ^ k) :
    (natStr n).length ≤ k :=
  decCharsCore_length_le (n + 1) n k (by omega) hk h

theorem natPad_length_eq (w n : Nat) (h : (natStr n).length ≤ w) :
    (natPad w n).length = w := by
  unfold natPad
  by_cases hc : (natStr n).length < w
  · simp only [hc, if_true, String.length_append]
    have hmk : (String.mk (List.replicate (w - (natStr n).length) '0')).length =
        w - (natStr n).length := by
      show (List.replicate (w - (natStr n).length) '0').length = w - (natStr n).length
      exact List.length_replicate _ _
    omega
  · simp only [hc, if_false]
    omega

/-- C10: `Time::nanosecond_to_millisecond` maps every 32-bit nanosecond value
into `0..=999`, and the `{:03}`-padded rendering of that millisecond in the
basic formatter's timestamp is therefore exactly three characters long. -/
theorem nanosecond_to_millisecond_range (n : Nat) (_h : n < 2 ^ 32) :
    Time.nanosecond_to_millisecond n ≤ 999 ∧
      (natPad 3 (Time.nanosecond_to_millisecond n)).length = 3 := by
  have h1 : Time.nanosecond_to_millisecond n ≤ 999 := by
    unfold Time.nanosecond_to_millisecond
    have hm : n % 1000000000 < 1000000000 := Nat.mod_lt n (by norm_num)
    omega
  refine ⟨h1, natPad_length_eq 3 _ ?_⟩
  exact natStr_length_le _ 3 (by norm_num) (by norm_num; omega)

/-- Witness for C10 at the concrete nanosecond value 123456789. -/
theorem nanosecond_to_millisecond_range_witness :
    123456789 < 2 ^ 32 ∧
      (Time.nanosecond_to_millisecond 123456789 ≤ 999 ∧
        (natPad 3 (Time.nanosecond_to_millisecond 123456789)).length = 3) :=
  ⟨by norm_num, nanosecond_to_millisecond_range 123456789 (by norm_num)⟩

/-! ## C2: the output byte layout -/

/-- The basic formatter's output layout written from the spec's words,
without a trailing end-of-line: `[YYYY-MM-DD HH:MM:SS.mmm] [logger_name]
[LEVEL] [file:line] payload`, the logger-name and file:line segments
present only when the record carries them. Used to cross-check the source
embedding `BasicFormatter.formatWithTime`. -/
def specBasicLayout (t : Time) (r : Record) : String :=
  "[" ++ intStr t.year ++ "-" ++ natPad 2 t.month ++ "-" ++ natPad 2 t.day ++ " "
      ++ natPad 2 t.hour ++ ":" ++ natPad 2 t.minute ++ ":" ++ natPad 2 t.second
      ++ "." ++ natPad 3 t.millisecond ++ "]"
    ++ (match r.logger_name with
        | some logger_name => " [" ++ logger_name ++ "]"
        | none => "")
    ++ " [" ++ Level.text r.level
    ++ (match r.source_location with
        | some srcloc => "] [" ++ srcloc.file_name ++ ":" ++ natStr srcloc.line
        | none => "")
    ++ "] " ++ r.payload

/-- C2 counterexample: at the spec's own concrete scenario (level `warn`, no
logger name, no source location, payload `"test log content"`, local time
`2021-12-23 01:23:45.067`), the basic formatter's output ends with the
payload's last character `'t'` — there is no trailing `<EOL>` (`"\n"` or
`"\r\n"`, whose last character would be `'\n'`) in the formatter's output. -/
theorem basicFormatter_no_trailing_eol :
    (BasicFormatter.format convScenario LocalTimeCacher.new recordScenario "").1.1 =
      "[2021-12-23 01:23:45.067] [warn] test log content" ∧
    ((BasicFormatter.format convScenario LocalTimeCacher.new recordScenario "").1.1).back = 't' :=
  ⟨rfl, rfl⟩

/-- C2 (amended): the basic formatter's output follows the byte layout
`[YYYY-MM-DD HH:MM:SS.mmm] [logger_name] [LEVEL] [file:line] payload` with
no trailing end-of-line (the formatter itself appends no `<EOL>`), the
logger-name and file:line segments present only when the record carries
them; the spec's concrete scenario yields exactly
`"[2021-12-23 01:23:45.067] [warn] test log content"`. -/
theorem basicFormatter_output_layout (conv : Int → CalFields) (c : LocalTimeCacher)
    (r : Record) :
    (BasicFormatter.format conv c r "").1.1 =
      specBasicLayout (LocalTimeCacher.get conv c r.time).1 r ∧
    (BasicFormatter.format convScenario LocalTimeCacher.new recordScenario "").1.1 =
      "[2021-12-23 01:23:45.067] [warn] test log content" := by
  refine ⟨?_, rfl⟩
  rcases r with ⟨lvl, payload, ln, sl, tm⟩
  cases ln <;> cases sl <;>
    · apply String.ext
      simp [BasicFormatter.format, BasicFormatter.formatWithTime, specBasicLayout, headerSeg,
        String.data_append, List.append_assoc]

/-! ## Success behaviour of the instrumented formatter -/

theorem formatF_ok_val (conv : Int → CalFields) (oracle : Nat → Bool) (c : LocalTimeCacher)
    (r : Record) (dest : String) (v : (String × FmtExtraInfo) × LocalTimeCacher)
    (h : BasicFormatter.formatF conv oracle c r dest = Except.ok v) :
    v = BasicFormatter.format conv c r dest := by
  rcases r with ⟨lvl, payload, ln, sl, tm⟩
  cases ln <;> cases sl <;>
    (by_cases h0 : oracle 0 <;> by_cases h1 : oracle 1 <;> by_cases h2 : oracle 2 <;>
      by_cases h3 : oracle 3 <;> by_cases h4 : oracle 4 <;>
      simp_all [BasicFormatter.formatF, BasicFormatter.format, BasicFormatter.formatWithTime,
        optWrite, wtry, String.append_assoc])

/-- Structure of a successful `format` output: the buffer decomposes around
the level text, and the recorded style range is exactly the level text's
span. -/
theorem formatWithTime_decomp (t : Time) (r : Record) (dest : String) :
    ∃ A B : String,
      (BasicFormatter.formatWithTime t r dest).1 =
        A ++ Level.text r.level ++ B ++ "] " ++ r.payload ∧
      (BasicFormatter.formatWithTime t r dest).2.style_range =
        some (A.length, A.length + (Level.text r.level).length) := by
  rcases r with ⟨lvl, payload, ln, sl, tm⟩
  cases ln with
  | none =>
    cases sl with
    | none =>
      refine ⟨dest ++ headerSeg t, "", ?_, ?_⟩ <;>
        simp [BasicFormatter.formatWithTime, String.append_assoc, String.length_append] <;>
        omega
    | some srcloc =>
      refine ⟨dest ++ headerSeg t, "] [" ++ srcloc.file_name ++ ":" ++ natStr srcloc.line,
        ?_, ?_⟩ <;>
        simp [BasicFormatter.formatWithTime, String.append_assoc, String.length_append] <;>
        omega
  | some logger_name =>
    cases sl with
    | none =>
      refine ⟨dest ++ headerSeg t ++ logger_name ++ "] [", "", ?_, ?_⟩ <;>
        simp [BasicFormatter.formatWithTime, String.append_assoc, String.length_append] <;>
        omega
    | some srcloc =>
      refine ⟨dest ++ headerSeg t ++ logger_name ++ "] [",
        "] [" ++ srcloc.file_name ++ ":" ++ natStr srcloc.line, ?_, ?_⟩ <;>
        simp [BasicFormatter.formatWithTime, String.append_assoc, String.length_append] <;>
        omega

/-- C4: whenever `BasicFormatter::format` succeeds, the output buffer
contains the record's payload immediately after the closing bracket of the
level/location segment (the final `"] "`), the reported style range spans
exactly the level's textual representation, and the range's upper bound is
a valid index of the buffer produced by that same call. -/
theorem basicFormatter_payload_after_level_and_style_range (conv : Int → CalFields)
    (oracle : Nat → Bool) (c : LocalTimeCacher) (r : Record) (dest out : String)
    (info : FmtExtraInfo) (c2 : LocalTimeCacher)
    (h : BasicFormatter.formatF conv oracle c r dest = Except.ok ((out, info), c2)) :
    ∃ A B : String,
      out = A ++ Level.text r.level ++ B ++ "] " ++ r.payload ∧
      info.style_range = some (A.length, A.length + (Level.text r.level).length) ∧
      A.length + (Level.text r.level).length ≤ out.length := by
  have hv := formatF_ok_val conv oracle c r dest _ h
  obtain ⟨A, B, hout, hrange⟩ :=
    formatWithTime_decomp (LocalTimeCacher.get conv c r.time).1 r dest
  have h1 : out = (BasicFormatter.formatWithTime (LocalTimeCacher.get conv c r.time).1 r dest).1 :=
    congrArg (fun p => p.1.1) hv
  have h2 : info = (BasicFormatter.formatWithTime (LocalTimeCacher.get conv c r.time).1 r dest).2 :=
    congrArg (fun p => p.1.2) hv
  refine ⟨A, B, by rw [h1, hout], by rw [h2, hrange], ?_⟩
  rw [h1, hout]
  simp [String.length_append]
  omega

/-- Witness for C4 at the spec's concrete scenario under a fault-free
oracle. -/
theorem basicFormatter_payload_after_level_and_style_range_witness :
    ∃ A B : String,
      "[2021-12-23 01:23:45.067] [warn] test log content" =
        A ++ Level.text recordScenario.level ++ B ++ "] " ++ recordScenario.payload ∧
      FmtExtraInfo.style_range ⟨some (27, 31)⟩ =
        some (A.length, A.length + (Level.text recordScenario.level).length) ∧
      A.length + (Level.text recordScenario.level).length ≤
        "[2021-12-23 01:23:45.067] [warn] test log content".length :=
  basicFormatter_payload_after_level_and_style_range convScenario (fun _ => false)
    LocalTimeCacher.new recordScenario "" _ _
    ⟨some ⟨1640222625, ⟨2021, 12, 23, 1, 23, 45, 67⟩⟩⟩ rfl

/-- C9: whenever `BasicFormatter::format` succeeds, the returned
`FmtExtraInfo`'s style range is `Some` (never `None`) even though the field
is declared optional, and its begin bound does not exceed its end bound. -/
theorem basicFormatter_style_range_some_and_ordered (conv : Int → CalFields)
    (oracle : Nat → Bool) (c : LocalTimeCacher) (r : Record) (dest out : String)
    (info : FmtExtraInfo) (c2 : LocalTimeCacher)
    (h : BasicFormatter.formatF conv oracle c r dest = Except.ok ((out, info), c2)) :
    ∃ b e : Nat, info.style_range = some (b, e) ∧ b ≤ e := by
  have hv := formatF_ok_val conv oracle c r dest _ h
  obtain ⟨A, B, _, hrange⟩ :=
    formatWithTime_decomp (LocalTimeCacher.get conv c r.time).1 r dest
  have h2 : info = (BasicFormatter.formatWithTime (LocalTimeCacher.get conv c r.time).1 r dest).2 :=
    congrArg (fun p => p.1.2) hv
  exact ⟨A.length, A.length + (Level.text r.level).length, by rw [h2, hrange], by omega⟩

/-- Witness for C9 at the spec's concrete scenario under a fault-free
oracle. -/
theorem basicFormatter_style_range_some_and_ordered_witness :
    ∃ b e : Nat, FmtExtraInfo.style_range ⟨some (27, 31)⟩ = some (b, e) ∧ b ≤ e :=
  basicFormatter_style_range_some_and_ordered convScenario (fun _ => false)
    LocalTimeCacher.new recordScenario ""
    "[2021-12-23 01:23:45.067] [warn] test log content" _
    ⟨some ⟨1640222625, ⟨2021, 12, 23, 1, 23, 45, 67⟩⟩⟩ rfl

/-! ## C8: error propagation -/

theorem exists_lt_3_iff (p : Nat → Bool) :
    (∃ i, i < 3 ∧ p i = true) ↔ (p 0 = true ∨ p 1 = true ∨ p 2 = true) := by
  constructor
  · rintro ⟨i, hi, hp⟩
    interval_cases i <;> tauto
  · rintro (hp | hp | hp)
    exacts [⟨0, by omega, hp⟩, ⟨1, by omega, hp⟩, ⟨2, by omega, hp⟩]

theorem exists_lt_4_iff (p : Nat → Bool) :
    (∃ i, i < 4 ∧ p i = true) ↔ (p 0 = true ∨ p 1 = true ∨ p 2 = true ∨ p 3 = true) := by
  constructor
  · rintro ⟨i, hi, hp⟩
    interval_cases i <;> tauto
  · rintro (hp | hp | hp | hp)
    exacts [⟨0, by omega, hp⟩, ⟨1, by omega, hp⟩, ⟨2, by omega, hp⟩, ⟨3, by omega, hp⟩]

theorem exists_lt_5_iff (p : Nat → Bool) :
    (∃ i, i < 5 ∧ p i = true) ↔
      (p 0 = true ∨ p 1 = true ∨ p 2 = true ∨ p 3 = true ∨ p 4 = true) := by
  constructor
  · rintro ⟨i, hi, hp⟩
    interval_cases i <;> tauto
  · rintro (hp | hp | hp | hp | hp)
    exacts [⟨0, by omega, hp⟩, ⟨1, by omega, hp⟩, ⟨2, by omega, hp⟩, ⟨3, by omega, hp⟩,
      ⟨4, by omega, hp⟩]

/-- C8: a format call fails exactly when one of the buffer writes it executes
fails. For `BasicFormatter::format`: an error is returned iff the fault
oracle fails one of the writes the record makes the formatter execute (a
record's content — including absent optional fields, which are simply
omitted — never causes an error: under a fault-free oracle the call
succeeds, for every record, with the pure result); any such error is
propagated to the caller. Likewise the `Eol` pattern fails iff its single
buffer write fails, independently of the record. -/
theorem format_error_iff_write_failure {γ : Type} (conv : Int → CalFields)
    (oracle : Nat → Bool) (c : LocalTimeCacher) (r : Record) (dest : String)
    (w b : Bool) (ctx : γ) :
    ((∃ e, BasicFormatter.formatF conv oracle c r dest = Except.error e) ↔
      (∃ i, i < numWrites r ∧ oracle i = true)) ∧
    BasicFormatter.formatF conv (fun _ => false) c r dest =
      Except.ok (BasicFormatter.format conv c r dest) ∧
    ((∃ e, Eol.format w b r dest ctx = Except.error e) ↔ b = true) := by
  refine ⟨?_, ?_, ?_⟩
  · rcases r with ⟨lvl, payload, ln, sl, tm⟩
    cases ln <;> cases sl <;>
      simp only [numWrites] <;>
      norm_num <;>
      (first | rw [exists_lt_3_iff] | rw [exists_lt_4_iff] | rw [exists_lt_5_iff]) <;>
      (by_cases h0 : oracle 0 <;> by_cases h1 : oracle 1 <;> by_cases h2 : oracle 2 <;>
        by_cases h3 : oracle 3 <;> by_cases h4 : oracle 4 <;>
        simp_all [BasicFormatter.formatF, optWrite, wtry] <;>
        exact ⟨FmtError.formatRecord, trivial⟩)
  · rcases r with ⟨lvl, payload, ln, sl, tm⟩
    cases ln <;> cases sl <;>
      simp [BasicFormatter.formatF, BasicFormatter.format, BasicFormatter.formatWithTime,
        optWrite, wtry, String.append_assoc]
  · cases b <;> simp [Eol.format] <;> exact ⟨FmtError.formatRecord, trivial⟩

/-! ## C7: the end-of-line element -/

/-- C7: for every record and every pattern context, a successful
`Eol::format` call appends exactly the platform line terminator — `"\n"` on
POSIX-family targets and `"\r\n"` on Windows-family targets — to the output
buffer (the prior buffer content stays as a prefix, unchanged), leaves the
context untouched, and the result is independent of the record's content. -/
theorem eol_appends_platform_terminator {γ : Type} (windows wfail : Bool)
    (r r2 : Record) (dest : String) (ctx : γ) :
    Eol.format windows false r dest ctx = Except.ok (dest ++ EOL windows, ctx) ∧
    EOL true = "\r\n" ∧ EOL false = "\n" ∧
    Eol.format windows wfail r dest ctx = Eol.format windows wfail r2 dest ctx :=
  ⟨rfl, rfl, rfl, rfl⟩

/-! ## C6: the crash-handler reentrancy guard -/

/-- The number of flush attempts a crash-handler state may still make:
at most one before the first fatal event, none once handling has begun. -/
def crashPot : CrashState → Nat
  | CrashState.uninstalled => 1
  | CrashState.installed => 1
  | CrashState.handling => 0
  | CrashState.reraised => 0
  | CrashState.terminated => 0

theorem runCrash_flushes_le_pot (es : List CrashEvent) :
    ∀ s : CrashState, (runCrash s es).2 ≤ crashPot s := by
  induction es with
  | nil => intro s; simp [runCrash]
  | cons e es ih =>
    intro s
    cases s <;> cases e <;>
      simp [runCrash, crashStep, crashPot] <;>
      (first
        | (have h2 := ih CrashState.uninstalled; simp [crashPot] at h2; omega)
        | (have h2 := ih CrashState.installed; simp [crashPot] at h2; omega)
        | (have h2 := ih CrashState.handling; simp [crashPot] at h2; omega)
        | (have h2 := ih CrashState.reraised; simp [crashPot] at h2; omega)
        | (have h2 := ih CrashState.terminated; simp [crashPot] at h2; omega))

/-- C6: the reentrancy guard. A fatal event arriving while the crash handler
is already `Handling` transitions directly to `Terminated` with no flush
attempt; consequently, along any sequence of events starting from the
uninstalled state, at most one flush is ever attempted — the handler never
performs a second (recursive) flush. -/
theorem crash_handler_reentrancy_guard :
    crashStep CrashState.handling CrashEvent.fatal = (CrashState.terminated, false) ∧
    ∀ es : List CrashEvent, (runCrash CrashState.uninstalled es).2 ≤ 1 := by
  refine ⟨rfl, fun es => ?_⟩
  have h := runCrash_flushes_le_pot es CrashState.uninstalled
  simpa [crashPot] using h
